import Mathlib

/-!
Verification of the post-selector utility of a static blog repository.

The source module exports two functions:

* `getPublishedAndSortedPosts(allPosts)`: filters a list of blog collection
  entries by an environment-sensitive draft policy (`import.meta.env.PROD`
  and `siteMetadata.devMode.showDraftPages`), then sorts the kept posts with
  the comparator `(post1, post2) => isDateBefore(post1.data.pubDate,
  post2.data.pubDate) ? 1 : -1`.
* `isDateBefore(date1, date2) = date1.getTime() < date2.getTime()`.

The embedding below models a JavaScript `Date` by its millisecond timestamp
(`getTime`), the two environment globals by an explicit `Env` record, and
`Array.prototype.sort` (a stable comparison sort in modern engines) by a
stable sort that keeps `post1` left of `post2` exactly when the comparator
returns a non-positive value.  A second model (`DateN`, `PostN`, ...) keeps
the possibility of an invalid `Date` (`getTime()` equal to `NaN`, modelled
as `none`), under which every JavaScript `<` comparison is false.
-/

namespace AstroBlog

/-- A JavaScript `Date` holding a valid instant; `getTime` is its
millisecond-resolution timestamp. -/
structure Date where
  time : Int
  deriving DecidableEq

/-- `Date.prototype.getTime()`. -/
def Date.getTime (d : Date) : Int :=
  d.time

/-- The `data` record of a blog collection entry: the selector reads only
`draft` and `pubDate`. -/
structure PostData where
  draft : Bool
  pubDate : Date
  deriving DecidableEq

/-- A blog collection entry as used by the selector: only `data` is read. -/
structure Post where
  data : PostData
  deriving DecidableEq

/-- The environment the selector reads: the production flag
`import.meta.env.PROD` and the configuration flag
`siteMetadata.devMode.showDraftPages`. -/
structure Env where
  PROD : Bool
  showDraftPages : Bool
  deriving DecidableEq

/-- `isDateBefore(date1, date2) = date1.getTime() < date2.getTime()`. -/
def isDateBefore (date1 date2 : Date) : Bool :=
  date1.getTime < date2.getTime

/-- The filter callback of `getPublishedAndSortedPosts`:
if `import.meta.env.PROD` then `!post.data.draft`, otherwise
`siteMetadata.devMode.showDraftPages ? true : !post.data.draft`. -/
def keepPost (env : Env) (post : Post) : Bool :=
  if env.PROD then
    !post.data.draft
  else
    if env.showDraftPages then true else !post.data.draft

/-- The comparator passed to `.sort`: returns `1` when `post1.data.pubDate`
is strictly before `post2.data.pubDate`, and `-1` otherwise (never `0`). -/
def sortCmp (post1 post2 : Post) : Int :=
  if isDateBefore post1.data.pubDate post2.data.pubDate then 1 else -1

/-- The ordering the comparator induces on the sort: `post1` stays left of
`post2` exactly when the comparator value is non-positive. -/
def sortLe (post1 post2 : Post) : Prop :=
  sortCmp post1 post2 ≤ 0

instance : DecidableRel sortLe :=
  fun a b => inferInstanceAs (Decidable (sortCmp a b ≤ 0))

/-- `getPublishedAndSortedPosts`: filter by the draft policy, then sort by
the comparator.  `Array.prototype.sort` is deterministically modelled by a
stable comparison sort over `sortLe`.  Because the comparator never
returns `0`, it is not a consistent comparison function in the sense of
ECMA-262, which therefore leaves the relative order of posts with tied
timestamps implementation-defined; this embedding fixes one allowed tie
order (input order).  Every property whose truth depends on the tie order
is settled against the relational model `IsSelectorResult` below, not
against this deterministic refinement. -/
def getPublishedAndSortedPosts (env : Env) (allPosts : List Post) : List Post :=
  (allPosts.filter (keepPost env)).insertionSort sortLe

/-- An allowed result of `Array.prototype.sort` on `l` with the source's
comparator, per ECMA-262: the call always returns some permutation of the
receiver's elements, and since the comparator answers every query
according to the total preorder "later-or-tied timestamp first", any
comparison sort leaves the output pairwise non-ascending in timestamp
(`sortLe`-sorted); but the comparator never returns `0`, so it is not a
consistent comparison function and the relative order of tied posts is
implementation-defined — any `sortLe`-sorted permutation may be returned.
Node/V8's TimSort, for instance, scans a tied pair as a descending run
(the comparator returns `-1`) and reverses it. -/
def IsJsSortResult (l out : List Post) : Prop :=
  out.Perm l ∧ out.Pairwise sortLe

/-- An allowed result of `getPublishedAndSortedPosts` on `input` under the
implementation-defined tie order: any allowed sort result of the filtered
input. -/
def IsSelectorResult (env : Env) (input out : List Post) : Prop :=
  IsJsSortResult (input.filter (keepPost env)) out

instance (l out : List Post) : Decidable (IsJsSortResult l out) :=
  inferInstanceAs (Decidable (_ ∧ _))

instance (env : Env) (input out : List Post) :
    Decidable (IsSelectorResult env input out) :=
  inferInstanceAs (Decidable (IsJsSortResult _ _))

/-- Strictly-later-timestamp ordering on posts. -/
def strictAfter (a b : Post) : Prop :=
  b.data.pubDate.getTime < a.data.pubDate.getTime

instance : IsAntisymm Post strictAfter :=
  ⟨fun a b h1 h2 => by
    exfalso
    simp only [strictAfter] at h1 h2
    omega⟩

/-! ### Array-store model of the same computation

`Array.prototype.filter` allocates a new array; `Array.prototype.sort`
mutates its receiver in place and returns the same reference.  To state the
frame property (the caller's array is untouched) we model a heap of arrays
addressed by references. -/

/-- A heap of JavaScript arrays of posts. -/
abbrev Store := List (List Post)

/-- A reference to an array in the store. -/
abbrev ArrRef := Nat

/-- Read the array a reference points to. -/
def readArr (σ : Store) (r : ArrRef) : List Post :=
  σ.getD r []

/-- Allocate a fresh array, returning the new store and its reference. -/
def allocArr (σ : Store) (a : List Post) : Store × ArrRef :=
  (σ ++ [a], σ.length)

/-- Overwrite the array a reference points to. -/
def writeArr (σ : Store) (r : ArrRef) (a : List Post) : Store :=
  σ.set r a

/-- `Array.prototype.filter`: reads the receiver and allocates a NEW array
holding the kept elements; the receiver is not written. -/
def jsFilter (σ : Store) (r : ArrRef) (p : Post → Bool) : Store × ArrRef :=
  allocArr σ ((readArr σ r).filter p)

/-- `Array.prototype.sort`: sorts the receiver IN PLACE and returns the
same reference. -/
def jsSortInPlace (σ : Store) (r : ArrRef) : Store × ArrRef :=
  (writeArr σ r ((readArr σ r).insertionSort sortLe), r)

/-- `getPublishedAndSortedPosts` at the store level: `.filter` on the input
array, then `.sort` on the array `.filter` returned. -/
def getPublishedAndSortedPostsSt (env : Env) (σ : Store) (r : ArrRef) :
    Store × ArrRef :=
  let filtered := jsFilter σ r (keepPost env)
  jsSortInPlace filtered.1 filtered.2

/-! ### Model with possibly-invalid dates

`DateN.time = none` models a `pubDate` that is absent or unparseable: its
`getTime()` is `NaN`, and every JavaScript `<` comparison involving `NaN`
is false. -/

/-- A JavaScript `Date` that may be invalid (`none` = `getTime()` is
`NaN`). -/
structure DateN where
  time : Option Int
  deriving DecidableEq

/-- `getTime()` of a possibly-invalid date. -/
def DateN.getTime (d : DateN) : Option Int :=
  d.time

/-- JavaScript `<` on `getTime()` results: comparisons with `NaN` (here
`none`) are always false. -/
def jsLt : Option Int → Option Int → Bool
  | some x, some y => x < y
  | _, _ => false

/-- `isDateBefore` over possibly-invalid dates. -/
def isDateBeforeN (date1 date2 : DateN) : Bool :=
  jsLt date1.getTime date2.getTime

/-- Post data with a possibly-invalid `pubDate`. -/
structure PostDataN where
  draft : Bool
  pubDate : DateN
  deriving DecidableEq

/-- A collection entry with a possibly-invalid `pubDate`. -/
structure PostN where
  data : PostDataN
  deriving DecidableEq

/-- The filter callback over `PostN` (it never looks at `pubDate`). -/
def keepPostN (env : Env) (post : PostN) : Bool :=
  if env.PROD then
    !post.data.draft
  else
    if env.showDraftPages then true else !post.data.draft

/-- The sort comparator over `PostN`. -/
def sortCmpN (post1 post2 : PostN) : Int :=
  if isDateBeforeN post1.data.pubDate post2.data.pubDate then 1 else -1

/-- The induced ordering over `PostN`. -/
def sortLeN (post1 post2 : PostN) : Prop :=
  sortCmpN post1 post2 ≤ 0

instance : DecidableRel sortLeN :=
  fun a b => inferInstanceAs (Decidable (sortCmpN a b ≤ 0))

/-- `getPublishedAndSortedPosts` over possibly-invalid dates: a total
function, it returns normally on every input. -/
def getPublishedAndSortedPostsN (env : Env) (allPosts : List PostN) : List PostN :=
  (allPosts.filter (keepPostN env)).insertionSort sortLeN

/-! ### Basic facts about the comparator ordering -/

theorem sortLe_iff (post1 post2 : Post) :
    sortLe post1 post2 ↔ post2.data.pubDate.getTime ≤ post1.data.pubDate.getTime := by
  simp only [sortLe, sortCmp, isDateBefore]
  split
  next h =>
    rw [decide_eq_true_eq] at h
    constructor
    · intro h1
      omega
    · intro h2
      omega
  next h =>
    rw [decide_eq_true_eq] at h
    constructor
    · intro _
      omega
    · intro _
      omega

instance : IsTotal Post sortLe :=
  ⟨fun a b => by
    rw [sortLe_iff, sortLe_iff]
    omega⟩

instance : IsTrans Post sortLe :=
  ⟨fun a b c hab hbc => by
    rw [sortLe_iff] at hab hbc ⊢
    omega⟩

/-! ### Claim theorems -/

/-- C1: for every environment and input list, the output of
`getPublishedAndSortedPosts` is a permutation of exactly the sublist of
input posts that pass the draft filter, so every post of that sublist
appears in the output exactly as many times as in the filtered input, and
no other post appears. -/
theorem selector_output_perm_filtered (env : Env) (allPosts : List Post) :
    (getPublishedAndSortedPosts env allPosts).Perm (allPosts.filter (keepPost env)) ∧
    ∀ post : Post,
      (getPublishedAndSortedPosts env allPosts).count post =
        (allPosts.filter (keepPost env)).count post := by
  have h := List.perm_insertionSort sortLe (allPosts.filter (keepPost env))
  exact ⟨h, fun post => h.count_eq post⟩

/-- C2: in production mode (`PROD = true`, with either value of
`showDraftPages`), every post in the output of
`getPublishedAndSortedPosts` has `draft = false`. -/
theorem selector_prod_excludes_drafts (sd : Bool) (allPosts : List Post)
    (post : Post)
    (hmem : post ∈ getPublishedAndSortedPosts ⟨true, sd⟩ allPosts) :
    post.data.draft = false := by
  rw [getPublishedAndSortedPosts, List.mem_insertionSort, List.mem_filter] at hmem
  have hk := hmem.2
  simp only [keepPost, if_pos] at hk
  simpa using hk

/-- Witness for C2 at a concrete input: the sole non-draft post of a
two-post list is in the production output, and the theorem yields
`draft = false` for it. -/
theorem selector_prod_excludes_drafts_witness :
    (⟨⟨false, ⟨5⟩⟩⟩ : Post).data.draft = false :=
  selector_prod_excludes_drafts false [⟨⟨true, ⟨9⟩⟩⟩, ⟨⟨false, ⟨5⟩⟩⟩]
    ⟨⟨false, ⟨5⟩⟩⟩ (by decide)

/-- C3: for every environment and input list, the output of
`getPublishedAndSortedPosts` is pairwise sorted by `pubDate` descending:
whenever one post appears before another, the earlier-positioned post's
millisecond timestamp is not smaller. -/
theorem selector_output_sorted_descending (env : Env) (allPosts : List Post) :
    (getPublishedAndSortedPosts env allPosts).Pairwise
      (fun a b => b.data.pubDate.getTime ≤ a.data.pubDate.getTime) := by
  have h := List.sorted_insertionSort sortLe (allPosts.filter (keepPost env))
  exact List.Pairwise.imp (fun hab => (sortLe_iff _ _).mp hab) h

/-- C4: on every input list, non-production mode with
`showDraftPages = false` produces exactly the same output as production
mode (with either value of `showDraftPages`, which production mode
ignores). -/
theorem selector_dev_hide_drafts_eq_prod (sd : Bool) (allPosts : List Post) :
    getPublishedAndSortedPosts ⟨false, false⟩ allPosts =
      getPublishedAndSortedPosts ⟨true, sd⟩ allPosts := by
  unfold getPublishedAndSortedPosts
  have hf : allPosts.filter (keepPost ⟨false, false⟩) =
      allPosts.filter (keepPost ⟨true, sd⟩) := by
    apply List.filter_congr
    intro p _
    simp [keepPost]
  rw [hf]

/-- C5: in non-production mode with `showDraftPages = true`, the filter
keeps every input post (drafts included), and the output of
`getPublishedAndSortedPosts` is a permutation of the whole input. -/
theorem selector_dev_show_drafts_keeps_all (allPosts : List Post) :
    allPosts.filter (keepPost ⟨false, true⟩) = allPosts ∧
    (getPublishedAndSortedPosts ⟨false, true⟩ allPosts).Perm allPosts := by
  have hf : allPosts.filter (keepPost ⟨false, true⟩) = allPosts := by
    apply List.filter_eq_self.mpr
    intro a _
    simp [keepPost]
  refine ⟨hf, ?_⟩
  have h := List.perm_insertionSort sortLe (allPosts.filter (keepPost ⟨false, true⟩))
  rw [hf] at h
  rw [getPublishedAndSortedPosts, hf]
  exact h

/-- Two `sortLe`-sorted permutations of a list of posts with pairwise
distinct timestamps coincide: with no ties, non-ascending timestamps are
strictly descending, and a strictly sorted permutation is unique. -/
theorem sorted_perm_eq_of_distinct {l out1 out2 : List Post}
    (hd : l.Pairwise (fun a b => a.data.pubDate.getTime ≠ b.data.pubDate.getTime))
    (p1 : out1.Perm l) (s1 : out1.Pairwise sortLe)
    (p2 : out2.Perm l) (s2 : out2.Pairwise sortLe) :
    out1 = out2 := by
  have hd1 : out1.Pairwise
      (fun a b => a.data.pubDate.getTime ≠ b.data.pubDate.getTime) :=
    hd.perm p1.symm (fun h => Ne.symm h)
  have hd2 : out2.Pairwise
      (fun a b => a.data.pubDate.getTime ≠ b.data.pubDate.getTime) :=
    hd.perm p2.symm (fun h => Ne.symm h)
  have hs1 : out1.Pairwise strictAfter :=
    (s1.and hd1).imp (fun h => by
      have hle := (sortLe_iff _ _).mp h.1
      have hne := h.2
      simp only [strictAfter]
      omega)
  have hs2 : out2.Pairwise strictAfter :=
    (s2.and hd2).imp (fun h => by
      have hle := (sortLe_iff _ _).mp h.1
      have hne := h.2
      simp only [strictAfter]
      omega)
  exact List.eq_of_perm_of_sorted (p1.trans p2.symm) hs1 hs2

/-- C6 counterexample: on a two-post input whose posts share the timestamp
`4` (both kept in non-production mode with `showDraftPages = true`), the
reversed pair is an allowed result of the selector — and it is the result
Node/V8's TimSort actually produces, since its run detection compares the
tied pair, gets `-1`, treats it as a descending run and reverses it — and
the original order is in turn an allowed (and actual) result of
re-applying the selector to that output.  So a real execution has
`f (f x) ≠ f x`: the selector is not idempotent for every input, as tie
order is implementation-defined and V8 swaps tied distinct posts on each
application. -/
theorem selector_not_idempotent_on_ties :
    IsSelectorResult ⟨false, true⟩
        [⟨⟨false, ⟨4⟩⟩⟩, ⟨⟨true, ⟨4⟩⟩⟩] [⟨⟨true, ⟨4⟩⟩⟩, ⟨⟨false, ⟨4⟩⟩⟩] ∧
    IsSelectorResult ⟨false, true⟩
        [⟨⟨true, ⟨4⟩⟩⟩, ⟨⟨false, ⟨4⟩⟩⟩] [⟨⟨false, ⟨4⟩⟩⟩, ⟨⟨true, ⟨4⟩⟩⟩] ∧
    ([⟨⟨true, ⟨4⟩⟩⟩, ⟨⟨false, ⟨4⟩⟩⟩] : List Post) ≠
      [⟨⟨false, ⟨4⟩⟩⟩, ⟨⟨true, ⟨4⟩⟩⟩] :=
  ⟨by decide, by decide, by decide⟩

/-- C6 (amended): when the posts kept by the filter have pairwise distinct
`pubDate` timestamps, the comparator is consistent on them, so the sort
result is uniquely determined — every ECMA-262-allowed selector result
equals the deterministic embedding's output — and the selector is
idempotent: every allowed result of re-applying the selector to an
allowed output is that output unchanged, and the deterministic embedding
satisfies `f (f x) = f x`.  (On inputs with tied timestamps, only the
relative order of the tied posts may change between applications.) -/
theorem selector_idempotent_no_ties (env : Env) (allPosts : List Post)
    (hdist : (allPosts.filter (keepPost env)).Pairwise
      (fun a b => a.data.pubDate.getTime ≠ b.data.pubDate.getTime)) :
    (∀ out, IsSelectorResult env allPosts out →
        out = getPublishedAndSortedPosts env allPosts) ∧
    (∀ out1 out2, IsSelectorResult env allPosts out1 →
        IsSelectorResult env out1 out2 → out2 = out1) ∧
    getPublishedAndSortedPosts env (getPublishedAndSortedPosts env allPosts) =
      getPublishedAndSortedPosts env allPosts := by
  have hmodel : IsSelectorResult env allPosts
      (getPublishedAndSortedPosts env allPosts) :=
    ⟨List.perm_insertionSort sortLe _, List.sorted_insertionSort sortLe _⟩
  have huniq : ∀ out, IsSelectorResult env allPosts out →
      out = getPublishedAndSortedPosts env allPosts := by
    intro out hout
    exact sorted_perm_eq_of_distinct hdist hout.1 hout.2 hmodel.1 hmodel.2
  have hre : ∀ out1 out2, IsSelectorResult env allPosts out1 →
      IsSelectorResult env out1 out2 → out2 = out1 := by
    intro out1 out2 h1 h2
    have hfix : out1.filter (keepPost env) = out1 := by
      apply List.filter_eq_self.mpr
      intro p hp
      exact (List.mem_filter.mp (h1.1.mem_iff.mp hp)).2
    have hd1 : out1.Pairwise
        (fun a b => a.data.pubDate.getTime ≠ b.data.pubDate.getTime) :=
      hdist.perm h1.1.symm (fun h => Ne.symm h)
    unfold IsSelectorResult at h2
    rw [hfix] at h2
    exact sorted_perm_eq_of_distinct hd1 h2.1 h2.2 (List.Perm.refl out1) h1.2
  refine ⟨huniq, hre, ?_⟩
  have hsecond : IsSelectorResult env (getPublishedAndSortedPosts env allPosts)
      (getPublishedAndSortedPosts env (getPublishedAndSortedPosts env allPosts)) :=
    ⟨List.perm_insertionSort sortLe _, List.sorted_insertionSort sortLe _⟩
  exact hre _ _ hmodel hsecond

/-- Witness for C6 (amended) at a concrete input whose two kept posts have
the distinct timestamps `1` and `2`. -/
theorem selector_idempotent_no_ties_witness :
    getPublishedAndSortedPosts ⟨true, false⟩
        (getPublishedAndSortedPosts ⟨true, false⟩
          [⟨⟨false, ⟨1⟩⟩⟩, ⟨⟨false, ⟨2⟩⟩⟩]) =
      getPublishedAndSortedPosts ⟨true, false⟩ [⟨⟨false, ⟨1⟩⟩⟩, ⟨⟨false, ⟨2⟩⟩⟩] :=
  (selector_idempotent_no_ties ⟨true, false⟩ [⟨⟨false, ⟨1⟩⟩⟩, ⟨⟨false, ⟨2⟩⟩⟩]
    (by decide)).2.2

/-- C7: `isDateBefore date1 date2` is true exactly when `date1`'s
millisecond timestamp is strictly smaller than `date2`'s; in particular it
is false when the two timestamps are equal.  (It is a pure function of its
two arguments: the embedding is a plain function, so it has no side
effects.) -/
theorem isDateBefore_iff_strictly_earlier (date1 date2 : Date) :
    (isDateBefore date1 date2 = true ↔ date1.getTime < date2.getTime) ∧
    (date1.getTime = date2.getTime → isDateBefore date1 date2 = false) := by
  constructor
  · simp [isDateBefore]
  · intro h
    simp [isDateBefore, h]

/-- Witness for C7 at a concrete input: two dates with the equal timestamp
`7` give `isDateBefore = false`. -/
theorem isDateBefore_iff_strictly_earlier_witness :
    isDateBefore ⟨7⟩ ⟨7⟩ = false :=
  (isDateBefore_iff_strictly_earlier ⟨7⟩ ⟨7⟩).2 rfl

/-- C10: on two posts whose `pubDate` millisecond timestamps are equal,
the sort comparator returns `-1` in both argument orders — never `0` — so
it reports an inconsistent strict order on ties. -/
theorem sortCmp_tie_returns_neg_one_both_ways (postA postB : Post)
    (h : postA.data.pubDate.getTime = postB.data.pubDate.getTime) :
    sortCmp postA postB = -1 ∧ sortCmp postB postA = -1 := by
  constructor <;> simp [sortCmp, isDateBefore, h]

/-- Witness for C10 at a concrete input: two posts with timestamp `4` make
the comparator return `-1` both ways. -/
theorem sortCmp_tie_returns_neg_one_both_ways_witness :
    sortCmp ⟨⟨false, ⟨4⟩⟩⟩ ⟨⟨true, ⟨4⟩⟩⟩ = -1 ∧
    sortCmp ⟨⟨true, ⟨4⟩⟩⟩ ⟨⟨false, ⟨4⟩⟩⟩ = -1 :=
  sortCmp_tie_returns_neg_one_both_ways ⟨⟨false, ⟨4⟩⟩⟩ ⟨⟨true, ⟨4⟩⟩⟩ rfl

/-- C8: at the array-store level, `getPublishedAndSortedPosts` leaves the
caller's array untouched and returns a different, freshly allocated
reference whose contents are the functional result: `.filter` allocates the
new array and `.sort` mutates only that new array in place. -/
theorem selector_preserves_input_array (env : Env) (σ : Store) (r : ArrRef)
    (h : r < σ.length) :
    readArr (getPublishedAndSortedPostsSt env σ r).1 r = readArr σ r ∧
    (getPublishedAndSortedPostsSt env σ r).2 ≠ r ∧
    readArr (getPublishedAndSortedPostsSt env σ r).1
        (getPublishedAndSortedPostsSt env σ r).2 =
      getPublishedAndSortedPosts env (readArr σ r) := by
  have hread : readArr (σ ++ [(readArr σ r).filter (keepPost env)]) σ.length
      = (readArr σ r).filter (keepPost env) := by
    simp only [readArr, List.getD_eq_getElem?_getD, List.getElem?_concat_length,
      Option.getD_some]
  have hst : getPublishedAndSortedPostsSt env σ r =
      (σ ++ [getPublishedAndSortedPosts env (readArr σ r)], σ.length) := by
    simp only [getPublishedAndSortedPostsSt, jsFilter, allocArr, jsSortInPlace,
      writeArr]
    rw [hread]
    rw [List.set_append_right _ _ (Nat.le_refl σ.length)]
    simp [getPublishedAndSortedPosts]
  rw [hst]
  refine ⟨?_, ?_, ?_⟩
  · simp only [readArr, List.getD_eq_getElem?_getD]
    rw [List.getElem?_append_left h]
  · show σ.length ≠ r
    exact Nat.ne_of_gt h
  · simp only [readArr, List.getD_eq_getElem?_getD, List.getElem?_concat_length,
      Option.getD_some]

/-- Witness for C8 at a concrete input: a store holding one two-post array
at reference `0`. -/
theorem selector_preserves_input_array_witness :
    readArr (getPublishedAndSortedPostsSt ⟨true, false⟩
        ([[⟨⟨true, ⟨9⟩⟩⟩, ⟨⟨false, ⟨5⟩⟩⟩]] : Store) 0).1 0 =
      readArr ([[⟨⟨true, ⟨9⟩⟩⟩, ⟨⟨false, ⟨5⟩⟩⟩]] : Store) 0 ∧
    (getPublishedAndSortedPostsSt ⟨true, false⟩
        ([[⟨⟨true, ⟨9⟩⟩⟩, ⟨⟨false, ⟨5⟩⟩⟩]] : Store) 0).2 ≠ 0 ∧
    readArr (getPublishedAndSortedPostsSt ⟨true, false⟩
        ([[⟨⟨true, ⟨9⟩⟩⟩, ⟨⟨false, ⟨5⟩⟩⟩]] : Store) 0).1
        (getPublishedAndSortedPostsSt ⟨true, false⟩
          ([[⟨⟨true, ⟨9⟩⟩⟩, ⟨⟨false, ⟨5⟩⟩⟩]] : Store) 0).2 =
      getPublishedAndSortedPosts ⟨true, false⟩
        (readArr ([[⟨⟨true, ⟨9⟩⟩⟩, ⟨⟨false, ⟨5⟩⟩⟩]] : Store) 0) :=
  selector_preserves_input_array ⟨true, false⟩
    ([[⟨⟨true, ⟨9⟩⟩⟩, ⟨⟨false, ⟨5⟩⟩⟩]] : Store) 0 (by decide)

/-- C9 counterexample: on an input whose middle post has an invalid
`pubDate` (`getTime()` is `NaN`, modelled by `none`), the selector raises
no error at all — it returns a plain list — and that list is mis-sorted:
the valid posts appear in ascending timestamp order (`1` before `2`), so
the claimed `InvalidRecord` failure never happens. -/
theorem selector_silent_on_invalid_pubDate :
    getPublishedAndSortedPostsN ⟨true, false⟩
        [⟨⟨false, ⟨some 1⟩⟩⟩, ⟨⟨false, ⟨none⟩⟩⟩, ⟨⟨false, ⟨some 2⟩⟩⟩] =
      [⟨⟨false, ⟨some 1⟩⟩⟩, ⟨⟨false, ⟨none⟩⟩⟩, ⟨⟨false, ⟨some 2⟩⟩⟩] ∧
    jsLt (DateN.mk (some 1)).getTime (DateN.mk (some 2)).getTime = true :=
  ⟨by decide, by decide⟩

/-- C9 (amended): `getPublishedAndSortedPosts` raises no error on any
input, including inputs containing posts whose `pubDate` is absent or
unparseable: it always returns normally with a permutation of the filtered
input (possibly mis-sorted, since every comparison against `NaN` is
false); a valid `pubDate` is an unchecked precondition. -/
theorem selectorN_total_returns_filtered_perm (env : Env) (allPosts : List PostN) :
    (getPublishedAndSortedPostsN env allPosts).Perm (allPosts.filter (keepPostN env)) :=
  List.perm_insertionSort sortLeN (allPosts.filter (keepPostN env))

end AstroBlog
